import Mathlib

/-!
Verification of the Barberflow frontend's conversational core against its
natural-language specification.

The development shallowly embeds three parts of the code base:

* the conversation state reducer and its guarded dispatch helpers
  (`src/hooks/useConversationState.js`);
* the voice-activity-detection frame handlers
  (`VoiceActivityDetection.analyzeAudio` / `handleSpeechDetected` /
  `handleSilenceDetected` / `handleSpeechEnd`);
* the text-processing utilities `cleanMarkdownForSpeech` and
  `hasMarkdownSyntax`.

JavaScript timestamps (`Date.now()`) are modelled as an explicit `Int`
parameter threaded through each handler; all `Date.now()` reads inside a
single synchronous frame are identified with the frame's timestamp.
JavaScript strings are modelled as `List Char`, and the regex-based
replacements are translated replace-by-replace with JS `String.replace`
global-match semantics (leftmost match, continue after replacement,
advance by one character on failure).
-/

/-! ## Conversation state machine (src/hooks/useConversationState.js) -/

/-- `CONVERSATION_STATES` from the source. -/
inductive CState where
  | idle
  | listening
  | processing
  | speaking
  | interrupted
  | error
deriving DecidableEq, Repr

/-- `CONVERSATION_MODES` from the source. -/
inductive CMode where
  | idle
  | conversational
deriving DecidableEq, Repr

/-- Session metadata: a JS object modelled as a key/value association list. -/
abbrev Metadata := List (String × String)

/-- `{...a, ...b}`: keys of `b` override keys of `a`. -/
def mergeMeta (a b : Metadata) : Metadata :=
  (List.filter (fun p => !(List.any b (fun q => q.1 == p.1))) a) ++ b

/-- The state object managed by `conversationReducer`. -/
structure ConvState where
  mode : CMode
  currentState : CState
  isActive : Bool
  canInterrupt : Bool
  sessionId : Option String
  startTime : Option Int
  lastActivity : Option Int
  exchangeCount : Nat
  error : Option String
  metadata : Metadata
deriving DecidableEq

/-- `initialState` from the source. -/
def initialState : ConvState :=
  { mode := CMode.idle
    currentState := CState.idle
    isActive := false
    canInterrupt := false
    sessionId := none
    startTime := none
    lastActivity := none
    exchangeCount := 0
    error := none
    metadata := [] }

/-- `ACTION_TYPES` together with the payloads each action carries.
`unknownAction` stands for the reducer's `default` branch. -/
inductive CAction where
  | startConversation (sessionId : Option String) (metadata : Option Metadata)
  | endConversation
  | startListening
  | speechDetected
  | startProcessing
  | startSpeaking
  | finishSpeaking
  | interruptSpeaking
  | errorOccurred (err : Option String)
  | resetError
  | updateSession (metadata : Option Metadata)
  | unknownAction
deriving DecidableEq

/-- `action.payload?.sessionId || "session_" + timestamp`; the empty string is
falsy in JS and falls back to the generated id. -/
def sessionIdOr (sid : Option String) (t : Int) : String :=
  match sid with
  | some s => if s = "" then "session_" ++ toString t else s
  | none => "session_" ++ toString t

/-- `action.payload?.error || 'Unknown error occurred'`; the empty string is
falsy in JS and falls back to the default message. -/
def errorOr (e : Option String) : String :=
  match e with
  | some s => if s = "" then "Unknown error occurred" else s
  | none => "Unknown error occurred"

/-- `conversationReducer` from the source; `t` is the `Date.now()` timestamp
captured at the top of the reducer. -/
def conversationReducer (t : Int) (state : ConvState) (action : CAction) : ConvState :=
  match action with
  | CAction.startConversation sid meta =>
      { state with
        mode := CMode.conversational
        currentState := CState.listening
        isActive := true
        sessionId := some (sessionIdOr sid t)
        startTime := some t
        lastActivity := some t
        exchangeCount := 0
        error := none
        metadata := meta.getD [] }
  | CAction.endConversation =>
      { state with
        mode := CMode.idle
        currentState := CState.idle
        isActive := false
        canInterrupt := false
        sessionId := none
        startTime := none
        lastActivity := some t
        error := none }
  | CAction.startListening =>
      { state with
        currentState := CState.listening
        canInterrupt := false
        lastActivity := some t
        error := none }
  | CAction.speechDetected =>
      { state with
        currentState := CState.processing
        lastActivity := some t }
  | CAction.startProcessing =>
      { state with
        currentState := CState.processing
        canInterrupt := false
        lastActivity := some t }
  | CAction.startSpeaking =>
      { state with
        currentState := CState.speaking
        canInterrupt := true
        lastActivity := some t
        exchangeCount := state.exchangeCount + 1 }
  | CAction.finishSpeaking =>
      { state with
        currentState :=
          if state.mode = CMode.conversational then CState.listening else CState.idle
        canInterrupt := false
        lastActivity := some t }
  | CAction.interruptSpeaking =>
      { state with
        currentState := CState.interrupted
        canInterrupt := false
        lastActivity := some t }
  | CAction.errorOccurred e =>
      { state with
        currentState := CState.error
        canInterrupt := false
        error := some (errorOr e)
        lastActivity := some t }
  | CAction.resetError =>
      { state with
        currentState :=
          if state.mode = CMode.conversational then CState.listening else CState.idle
        error := none
        lastActivity := some t }
  | CAction.updateSession meta =>
      { state with
        metadata := mergeMeta state.metadata (meta.getD [])
        lastActivity := some t }
  | CAction.unknownAction => state

/-- `startSpeaking` from the hook: the max-exchange cutoff ends the
conversation instead of dispatching `START_SPEAKING`.
`maxExchanges` is kept as an `Int` since JS options admit any number. -/
def startSpeakingFn (maxExchanges : Int) (t : Int) (state : ConvState) : ConvState :=
  if maxExchanges > 0 ∧ (state.exchangeCount : Int) ≥ maxExchanges then
    conversationReducer t state CAction.endConversation
  else
    conversationReducer t state CAction.startSpeaking

/-- `interruptSpeaking` from the hook: dispatches `INTERRUPT_SPEAKING` only
when `state.canInterrupt` holds (the deferred auto-return-to-listening
timeout is a separate later dispatch and is not part of this call). -/
def interruptSpeakingFn (t : Int) (state : ConvState) : ConvState :=
  if state.canInterrupt then conversationReducer t state CAction.interruptSpeaking
  else state

/-- `onSpeechDetected` from the hook: dispatches `SPEECH_DETECTED` only from
the `listening` state. -/
def onSpeechDetectedFn (t : Int) (state : ConvState) : ConvState :=
  if state.currentState = CState.listening then
    conversationReducer t state CAction.speechDetected
  else state

/-- The guard under which claim C10 quantifies action sequences:
`SPEECH_DETECTED` is only dispatched from the `listening` state (as
`onSpeechDetected` enforces); every other action is unrestricted. -/
def actionGuard (state : ConvState) (action : CAction) : Prop :=
  action = CAction.speechDetected → state.currentState = CState.listening

/-- States reachable from `initialState` by reducer steps respecting
`actionGuard`. -/
inductive Reachable : ConvState → Prop where
  | init : Reachable initialState
  | step (s : ConvState) (a : CAction) (t : Int) :
      Reachable s → actionGuard s a → Reachable (conversationReducer t s a)

/-! ## Voice activity detection (`VoiceActivityDetection`) -/

/-- The VAD configuration fields relevant to frame classification and
segmentation.  The threshold is rational because `calculateVolume` divides
byte sums; the durations are millisecond timestamps. -/
structure VADConfig where
  silenceThreshold : ℚ
  speechTimeout : Int
  minSpeechDuration : Int
  maxSpeechDuration : Int
deriving DecidableEq

/-- The constructor defaults: `{silenceThreshold: 30, speechTimeout: 1500,
minSpeechDuration: 500, maxSpeechDuration: 30000}`. -/
def defaultVADConfig : VADConfig :=
  { silenceThreshold := 30
    speechTimeout := 1500
    minSpeechDuration := 500
    maxSpeechDuration := 30000 }

/-- The callbacks a frame handler may fire. -/
inductive VADEvent where
  | speechStart
  | speechEnd (duration : Int)
deriving DecidableEq

/-- The mutable segmentation state of `VoiceActivityDetection`. -/
structure VADState where
  isSpeaking : Bool
  speechStartTime : Option Int
  lastSpeechTime : Option Int
  silenceStartTime : Option Int
deriving DecidableEq

/-- The state right after `start()`: not speaking, all timers `null`. -/
def vadStartState : VADState :=
  { isSpeaking := false
    speechStartTime := none
    lastSpeechTime := none
    silenceStartTime := none }

/-- JS truthiness fallback `v || dflt` on a nullable number: both `null` and
the number `0` are falsy. -/
def jsOr (v : Option Int) (dflt : Int) : Int :=
  match v with
  | some x => if x = 0 then dflt else x
  | none => dflt

/-- `handleSpeechEnd`: fires `onSpeechEnd` with duration
`(silenceStartTime || Date.now()) - speechStartTime` and resets the timers.
`now` stands for the `Date.now()` read; `speechStartTime` is read directly
(it is non-null whenever `isSpeaking` holds, modelled by `getD 0`). -/
def handleSpeechEnd (now : Int) (s : VADState) : VADState × List VADEvent :=
  if s.isSpeaking then
    let duration := jsOr s.silenceStartTime now - s.speechStartTime.getD 0
    ({ s with isSpeaking := false, speechStartTime := none, silenceStartTime := none },
     [VADEvent.speechEnd duration])
  else (s, [])

/-- `handleSpeechDetected`: refresh `lastSpeechTime`, clear the silence
timer, fire `onSpeechStart` when not already speaking, and force
`handleSpeechEnd` past `maxSpeechDuration`. -/
def handleSpeechDetected (cfg : VADConfig) (t : Int) (s : VADState) :
    VADState × List VADEvent :=
  let s1 := { s with lastSpeechTime := some t, silenceStartTime := none }
  let started :=
    if !s1.isSpeaking then
      ({ s1 with speechStartTime := some t, isSpeaking := true },
       [VADEvent.speechStart])
    else (s1, [])
  let s2 := started.1
  let speechDuration := t - s2.speechStartTime.getD 0
  if speechDuration > cfg.maxSpeechDuration then
    let ended := handleSpeechEnd t s2
    (ended.1, started.2 ++ ended.2)
  else (s2, started.2)

/-- `handleSilenceDetected`: start the silence timer if unset
(`if (!this.silenceStartTime)`, so a `0` timestamp also counts as unset),
and once silence exceeds `speechTimeout` either end the speech segment
(when it reached `minSpeechDuration`) or discard it. -/
def handleSilenceDetected (cfg : VADConfig) (t : Int) (s : VADState) :
    VADState × List VADEvent :=
  if s.isSpeaking then
    let silStart := jsOr s.silenceStartTime t
    let s1 := { s with silenceStartTime := some silStart }
    let silenceDuration := t - silStart
    if silenceDuration > cfg.speechTimeout then
      let speechDuration := silStart - s1.speechStartTime.getD 0
      if speechDuration ≥ cfg.minSpeechDuration then
        handleSpeechEnd t s1
      else
        ({ s1 with isSpeaking := false, speechStartTime := none, silenceStartTime := none },
         [])
    else (s1, [])
  else (s, [])

/-- `calculateVolume`: average the frequency-bin bytes and normalise to the
0–100 scale, `min(100, (average / 255) * 100)`. -/
def calculateVolume (dataArray : List ℕ) : ℚ :=
  let sum : ℚ := (dataArray.sum : ℚ)
  let average := sum / (dataArray.length : ℚ)
  min 100 ((average / 255) * 100)

/-- The frame classification in `analyzeAudio`:
`volume > this.config.silenceThreshold`. -/
def isSpeechDetectedFrame (threshold : ℚ) (dataArray : List ℕ) : Bool :=
  calculateVolume dataArray > threshold

/-- One iteration of the `analyzeAudio` loop: classify the frame, then run
the matching handler. -/
def vadStep (cfg : VADConfig) (t : Int) (dataArray : List ℕ) (s : VADState) :
    VADState × List VADEvent :=
  if isSpeechDetectedFrame cfg.silenceThreshold dataArray then
    handleSpeechDetected cfg t s
  else
    handleSilenceDetected cfg t s

/-! ## Text processing (`cleanMarkdownForSpeech`, `hasMarkdownSyntax`)

JS strings are `List Char`.  Each `String.replace(regex, …)` with the `g`
flag is translated as a left-to-right scanner: at each position it attempts
the pattern; on success it emits the replacement and resumes after the
match, on failure it emits one character and retries at the next position.
The scanners recurse on a fuel argument initialised to `length + 1`; every
recursive call strictly shortens the list, so the fuel never runs out. -/

/-- JS input values: the functions accept anything and return `''` for
non-strings and falsy values. -/
inductive JsValue where
  | str (s : List Char)
  | nullV
  | undefinedV
  | otherV
deriving DecidableEq

/-- The character class `\s` of JS regexes (whitespace incl. line
terminators, NBSP, Unicode spaces, BOM). -/
def isJsWs (c : Char) : Bool :=
  c == ' ' || c == '\t' || c == '\n' || c == '\r' ||
  c.toNat == 0x0b || c.toNat == 0x0c ||
  c.toNat == 0xa0 || c.toNat == 0x1680 ||
  (0x2000 ≤ c.toNat && c.toNat ≤ 0x200a) ||
  c.toNat == 0x2028 || c.toNat == 0x2029 ||
  c.toNat == 0x202f || c.toNat == 0x205f ||
  c.toNat == 0x3000 || c.toNat == 0xfeff

/-- Line terminators after which `^` matches under the `m` flag (and before
which `$` matches). -/
def isLineTerm (c : Char) : Bool :=
  c == '\n' || c == '\r' || c.toNat == 0x2028 || c.toNat == 0x2029

/-- The backtick character (codepoint 96). -/
def isTick (c : Char) : Bool :=
  c.toNat == 96

/-- The characters removed wholesale by the final
`replace(/[#*_`~|]/g, '')` step. -/
def isSpecialChar (c : Char) : Bool :=
  c == '#' || c == '*' || c == '_' || isTick c || c == '~' || c == '|'

/-- Split a list at the first occurrence of three consecutive backticks:
the prefix before them and the suffix after them. -/
def splitAtTripleTick : List Char → Option (List Char × List Char)
  | a :: b :: c :: rest =>
      if isTick a && isTick b && isTick c then some ([], rest)
      else (splitAtTripleTick (b :: c :: rest)).map (fun p => (a :: p.1, p.2))
  | _ => none

/-- The replacement text of the code-block rule. -/
def codeBlockText : List Char := " code block ".toList

/-- `replace(/```[\s\S]*?```/g, ' code block ')`: non-greedy contents, so
each opening fence pairs with the nearest closing fence. -/
def replaceCodeBlocksGo : Nat → List Char → List Char
  | 0, l => l
  | fuel + 1, l =>
      match l with
      | a :: b :: c :: rest =>
          if isTick a && isTick b && isTick c then
            match splitAtTripleTick rest with
            | some (_, after) => codeBlockText ++ replaceCodeBlocksGo fuel after
            | none => a :: replaceCodeBlocksGo fuel (b :: c :: rest)
          else a :: replaceCodeBlocksGo fuel (b :: c :: rest)
      | l => l

def replaceCodeBlocks (l : List Char) : List Char :=
  replaceCodeBlocksGo (l.length + 1) l

/-- `replace(/`([^`]+)`/g, '$1')`. -/
def replaceInlineCodeGo : Nat → List Char → List Char
  | 0, l => l
  | _ + 1, [] => []
  | fuel + 1, c :: rest =>
      if isTick c then
        let content := rest.takeWhile (fun d => !(isTick d))
        match content, rest.dropWhile (fun d => !(isTick d)) with
        | _ :: _, _ :: after => content ++ replaceInlineCodeGo fuel after
        | _, _ => c :: replaceInlineCodeGo fuel rest
      else c :: replaceInlineCodeGo fuel rest

def replaceInlineCode (l : List Char) : List Char :=
  replaceInlineCodeGo (l.length + 1) l

/-- `replace(/^#{1,6}\s+/gm, '')`: at a line start, up to six hashes
followed by whitespace (which may include newlines, greedily). The boolean
tracks whether the current position is a line start. -/
def stripHeadersGo : Nat → Bool → List Char → List Char
  | 0, _, l => l
  | _ + 1, _, [] => []
  | fuel + 1, atStart, c :: rest =>
      if atStart then
        let hashes := (c :: rest).takeWhile (fun d => d == '#')
        let r1 := (c :: rest).dropWhile (fun d => d == '#')
        if 1 ≤ hashes.length ∧ hashes.length ≤ 6 ∧
            (match r1 with | d :: _ => isJsWs d | [] => false) = true then
          let ws := r1.takeWhile isJsWs
          let r2 := r1.dropWhile isJsWs
          stripHeadersGo fuel
            (match ws.getLast? with | some d => isLineTerm d | none => false) r2
        else c :: stripHeadersGo fuel (isLineTerm c) rest
      else c :: stripHeadersGo fuel (isLineTerm c) rest

def stripHeaders (l : List Char) : List Char :=
  stripHeadersGo (l.length + 1) true l

/-- `replace(/\*\*([^*]+)\*\*/g, '$1')` (the `__` and `~~` rules share the
shape, abstracted over the delimiter character). -/
def replaceDoubleDelimGo (delim : Char) : Nat → List Char → List Char
  | 0, l => l
  | _ + 1, [] => []
  | _ + 1, [c] => [c]
  | fuel + 1, a :: b :: rest =>
      if a == delim && b == delim then
        let content := rest.takeWhile (fun d => d != delim)
        match content, rest.dropWhile (fun d => d != delim) with
        | _ :: _, x :: y :: after =>
            if x == delim && y == delim then
              content ++ replaceDoubleDelimGo delim fuel after
            else a :: replaceDoubleDelimGo delim fuel (b :: rest)
        | _, _ => a :: replaceDoubleDelimGo delim fuel (b :: rest)
      else a :: replaceDoubleDelimGo delim fuel (b :: rest)

def replaceDoubleDelim (delim : Char) (l : List Char) : List Char :=
  replaceDoubleDelimGo delim (l.length + 1) l

/-- `replace(/\*([^*]+)\*/g, '$1')` (shared with the `_` rule). -/
def replaceSingleDelimGo (delim : Char) : Nat → List Char → List Char
  | 0, l => l
  | _ + 1, [] => []
  | fuel + 1, c :: rest =>
      if c == delim then
        let content := rest.takeWhile (fun d => d != delim)
        match content, rest.dropWhile (fun d => d != delim) with
        | _ :: _, _ :: after => content ++ replaceSingleDelimGo delim fuel after
        | _, _ => c :: replaceSingleDelimGo delim fuel rest
      else c :: replaceSingleDelimGo delim fuel rest

def replaceSingleDelim (delim : Char) (l : List Char) : List Char :=
  replaceSingleDelimGo delim (l.length + 1) l

/-- `replace(/\[([^\]]+)\]\([^)]+\)/g, '$1')`. -/
def replaceLinksGo : Nat → List Char → List Char
  | 0, l => l
  | _ + 1, [] => []
  | fuel + 1, c :: rest =>
      if c == '[' then
        let content := rest.takeWhile (fun d => d != ']')
        match content, rest.dropWhile (fun d => d != ']') with
        | _ :: _, x :: y :: r2 =>
            if x == ']' && y == '(' then
              let url := r2.takeWhile (fun d => d != ')')
              match url, r2.dropWhile (fun d => d != ')') with
              | _ :: _, _ :: after => content ++ replaceLinksGo fuel after
              | _, _ => c :: replaceLinksGo fuel rest
            else c :: replaceLinksGo fuel rest
        | _, _ => c :: replaceLinksGo fuel rest
      else c :: replaceLinksGo fuel rest

def replaceLinks (l : List Char) : List Char :=
  replaceLinksGo (l.length + 1) l

/-- `replace(/!\[([^\]]*)\]\([^)]+\)/g, '$1')`: like links but introduced by
`![` and with possibly-empty alt text. -/
def replaceImagesGo : Nat → List Char → List Char
  | 0, l => l
  | _ + 1, [] => []
  | _ + 1, [c] => [c]
  | fuel + 1, a :: b :: rest =>
      if a == '!' && b == '[' then
        let content := rest.takeWhile (fun d => d != ']')
        match rest.dropWhile (fun d => d != ']') with
        | x :: y :: r2 =>
            if x == ']' && y == '(' then
              let url := r2.takeWhile (fun d => d != ')')
              match url, r2.dropWhile (fun d => d != ')') with
              | _ :: _, _ :: after => content ++ replaceImagesGo fuel after
              | _, _ => a :: replaceImagesGo fuel (b :: rest)
            else a :: replaceImagesGo fuel (b :: rest)
        | _ => a :: replaceImagesGo fuel (b :: rest)
      else a :: replaceImagesGo fuel (b :: rest)

def replaceImages (l : List Char) : List Char :=
  replaceImagesGo (l.length + 1) l

/-- `replace(/^>\s*/gm, '')`: at a line start, a `>` and any following
whitespace (greedy, possibly spanning newlines). -/
def stripBlockquotesGo : Nat → Bool → List Char → List Char
  | 0, _, l => l
  | _ + 1, _, [] => []
  | fuel + 1, atStart, c :: rest =>
      if atStart && c == '>' then
        let ws := rest.takeWhile isJsWs
        let r2 := rest.dropWhile isJsWs
        stripBlockquotesGo fuel
          (match ws.getLast? with | some d => isLineTerm d | none => false) r2
      else c :: stripBlockquotesGo fuel (isLineTerm c) rest

def stripBlockquotes (l : List Char) : List Char :=
  stripBlockquotesGo (l.length + 1) true l

/-- `replace(/^[-*]{3,}$/gm, '')`: a full line of three or more dashes or
asterisks (in any mixture). -/
def stripHRulesGo : Nat → Bool → List Char → List Char
  | 0, _, l => l
  | _ + 1, _, [] => []
  | fuel + 1, atStart, c :: rest =>
      if atStart then
        let run := (c :: rest).takeWhile (fun d => d == '-' || d == '*')
        let r1 := (c :: rest).dropWhile (fun d => d == '-' || d == '*')
        if 3 ≤ run.length ∧ (match r1 with | d :: _ => isLineTerm d | [] => true) = true then
          stripHRulesGo fuel false r1
        else c :: stripHRulesGo fuel (isLineTerm c) rest
      else c :: stripHRulesGo fuel (isLineTerm c) rest

def stripHRules (l : List Char) : List Char :=
  stripHRulesGo (l.length + 1) true l

/-- `replace(/\|/g, ' ')`. -/
def replacePipes (l : List Char) : List Char :=
  l.map (fun c => if c == '|' then ' ' else c)

/-- `replace(/[#*_`~|]/g, '')`. -/
def removeSpecialChars (l : List Char) : List Char :=
  l.filter (fun c => !(isSpecialChar c))

/-- `replace(/\s+/g, ' ')`: each maximal whitespace run becomes one space. -/
def collapseWs : List Char → List Char
  | [] => []
  | [c] => if isJsWs c then [' '] else [c]
  | c :: d :: rest =>
      if isJsWs c then
        if isJsWs d then collapseWs (d :: rest)
        else ' ' :: collapseWs (d :: rest)
      else c :: collapseWs (d :: rest)

/-- `.trim()`: drop whitespace from both ends. -/
def trimWs (l : List Char) : List Char :=
  ((l.dropWhile isJsWs).reverse.dropWhile isJsWs).reverse

/-- The replacement pipeline of `cleanMarkdownForSpeech`, in source order. -/
def cleanPipeline (s : List Char) : List Char :=
  trimWs (collapseWs (removeSpecialChars (replacePipes (stripHRules
    (stripBlockquotes (replaceImages (replaceLinks (replaceDoubleDelim '~'
      (replaceSingleDelim '_' (replaceSingleDelim '*' (replaceDoubleDelim '_'
        (replaceDoubleDelim '*' (stripHeaders (replaceInlineCode
          (replaceCodeBlocks s)))))))))))))))

/-- `cleanMarkdownForSpeech`: `''` for falsy or non-string input, otherwise
the pipeline. -/
def cleanMarkdownForSpeech : JsValue → List Char
  | JsValue.str s => if s.isEmpty then [] else cleanPipeline s
  | _ => []

/-- `regex.test` for a pattern with no anchors: does it match at some
position? -/
def testAnywhere (matchAt : List Char → Bool) : List Char → Bool
  | [] => false
  | c :: rest => matchAt (c :: rest) || testAnywhere matchAt rest

/-- `regex.test` for a `^…/m` pattern: does it match at some line start?
The boolean records whether the current position is a line start. -/
def testLineStart (matchAt : List Char → Bool) : Bool → List Char → Bool
  | _, [] => false
  | atStart, c :: rest =>
      (atStart && matchAt (c :: rest)) || testLineStart matchAt (isLineTerm c) rest

/-- `/^#{1,6}\s+/m` at the current position. -/
def matchHeaderAt (l : List Char) : Bool :=
  let hashes := l.takeWhile (fun d => d == '#')
  let r1 := l.dropWhile (fun d => d == '#')
  !hashes.isEmpty && decide (hashes.length ≤ 6) &&
    (match r1 with | d :: _ => isJsWs d | [] => false)

/-- `/\*\*[^*]+\*\*/` (and `/__[^_]+__/`, `/~~[^~]+~~/`) at the current
position, abstracted over the delimiter. -/
def matchDoubleDelimAt (delim : Char) : List Char → Bool
  | a :: b :: rest =>
      a == delim && b == delim &&
        (let content := rest.takeWhile (fun d => d != delim)
         !content.isEmpty &&
           (match rest.dropWhile (fun d => d != delim) with
            | x :: y :: _ => x == delim && y == delim
            | _ => false))
  | _ => false

/-- `/\*[^*]+\*/` (and `/_[^_]+_/`) at the current position. -/
def matchSingleDelimAt (delim : Char) : List Char → Bool
  | c :: rest =>
      c == delim &&
        (let content := rest.takeWhile (fun d => d != delim)
         !content.isEmpty && !(rest.dropWhile (fun d => d != delim)).isEmpty)
  | [] => false

/-- `/`[^`]+`/` at the current position. -/
def matchInlineCodeAt : List Char → Bool
  | c :: rest =>
      isTick c &&
        (let content := rest.takeWhile (fun d => !(isTick d))
         !content.isEmpty && !(rest.dropWhile (fun d => !(isTick d))).isEmpty)
  | [] => false

/-- `/```[\s\S]*?```/` at the current position. -/
def matchCodeBlockAt : List Char → Bool
  | a :: b :: c :: rest =>
      isTick a && isTick b && isTick c && (splitAtTripleTick rest).isSome
  | _ => false

/-- `/\[[^\]]+\]\([^)]+\)/` at the current position. -/
def matchLinkAt : List Char → Bool
  | c :: rest =>
      c == '[' &&
        (let content := rest.takeWhile (fun d => d != ']')
         !content.isEmpty &&
           (match rest.dropWhile (fun d => d != ']') with
            | x :: y :: r2 =>
                x == ']' && y == '(' &&
                  (let url := r2.takeWhile (fun d => d != ')')
                   !url.isEmpty && !(r2.dropWhile (fun d => d != ')')).isEmpty)
            | _ => false))
  | [] => false

/-- `/!\[[^\]]*\]\([^)]+\)/` at the current position. -/
def matchImageAt : List Char → Bool
  | a :: b :: rest =>
      a == '!' && b == '[' &&
        (match rest.dropWhile (fun d => d != ']') with
         | x :: y :: r2 =>
             x == ']' && y == '(' &&
               (let url := r2.takeWhile (fun d => d != ')')
                !url.isEmpty && !(r2.dropWhile (fun d => d != ')')).isEmpty)
         | _ => false)
  | _ => false

/-- `/^>\s+/m` at the current position. -/
def matchBlockquoteAt : List Char → Bool
  | c :: d :: _ => c == '>' && isJsWs d
  | _ => false

/-- `/^[-*+]\s+/m` at the current position. -/
def matchListAt : List Char → Bool
  | c :: d :: _ => (c == '-' || c == '*' || c == '+') && isJsWs d
  | _ => false

/-- `/^\d+\.\s+/m` at the current position. -/
def matchNumListAt (l : List Char) : Bool :=
  let digits := l.takeWhile (fun d => d.isDigit)
  !digits.isEmpty &&
    (match l.dropWhile (fun d => d.isDigit) with
     | x :: y :: _ => x == '.' && isJsWs y
     | _ => false)

/-- `hasMarkdownSyntax`: `false` for falsy or non-string input, otherwise
`markdownPatterns.some(p => p.test(text))`, patterns in source order. -/
def hasMarkdownSyntax : JsValue → Bool
  | JsValue.str s =>
      if s.isEmpty then false
      else
        testLineStart matchHeaderAt true s ||
        testAnywhere (matchDoubleDelimAt '*') s ||
        testAnywhere (matchDoubleDelimAt '_') s ||
        testAnywhere (matchSingleDelimAt '*') s ||
        testAnywhere (matchSingleDelimAt '_') s ||
        testAnywhere matchInlineCodeAt s ||
        testAnywhere matchCodeBlockAt s ||
        testAnywhere matchLinkAt s ||
        testAnywhere matchImageAt s ||
        testLineStart matchBlockquoteAt true s ||
        testLineStart matchListAt true s ||
        testLineStart matchNumListAt true s ||
        testAnywhere (matchDoubleDelimAt '~') s
  | _ => false

/-! ## Theorems: conversation state machine -/

/-- A concrete speaking-state sample used by witnesses. -/
def sampleSpeakingState : ConvState :=
  { mode := CMode.conversational
    currentState := CState.speaking
    isActive := true
    canInterrupt := true
    sessionId := some "session_0"
    startTime := some 0
    lastActivity := some 0
    exchangeCount := 1
    error := none
    metadata := [] }

/-- A concrete listening-state sample used by witnesses. -/
def sampleListeningState : ConvState :=
  { initialState with currentState := CState.listening }

/-- **C1.** For every state whose mode is `conversational`, `FINISH_SPEAKING`
and `RESET_ERROR` set `currentState` to `listening` (and `FINISH_SPEAKING`
also sets `canInterrupt` to `false`); for every state whose mode is not
`conversational`, both actions set `currentState` to `idle`.  `RESET_ERROR`
additionally sets `error` to `null`. -/
theorem finishSpeaking_resetError_target (t : Int) (s : ConvState) :
    (conversationReducer t s CAction.finishSpeaking).currentState =
      (if s.mode = CMode.conversational then CState.listening else CState.idle) ∧
    (conversationReducer t s CAction.finishSpeaking).canInterrupt = false ∧
    (conversationReducer t s CAction.resetError).currentState =
      (if s.mode = CMode.conversational then CState.listening else CState.idle) ∧
    (conversationReducer t s CAction.resetError).error = none := by
  refine ⟨?_, rfl, ?_, rfl⟩ <;> simp [conversationReducer]

/-- **C5.** `startSpeaking` ends the conversation (mode and state `idle`,
inactive, session cleared, never `speaking`) once the exchange cutoff is
reached, and otherwise dispatches `START_SPEAKING`, entering `speaking`
with `canInterrupt` set and the exchange counter incremented by one. -/
theorem startSpeakingFn_spec (mx t : Int) (s : ConvState) :
    (mx > 0 ∧ (s.exchangeCount : Int) ≥ mx →
      (startSpeakingFn mx t s).mode = CMode.idle ∧
      (startSpeakingFn mx t s).currentState = CState.idle ∧
      (startSpeakingFn mx t s).isActive = false ∧
      (startSpeakingFn mx t s).sessionId = none ∧
      (startSpeakingFn mx t s).currentState ≠ CState.speaking) ∧
    (¬(mx > 0 ∧ (s.exchangeCount : Int) ≥ mx) →
      (startSpeakingFn mx t s).currentState = CState.speaking ∧
      (startSpeakingFn mx t s).canInterrupt = true ∧
      (startSpeakingFn mx t s).exchangeCount = s.exchangeCount + 1) := by
  constructor
  · intro h
    simp [startSpeakingFn, if_pos h, conversationReducer]
  · intro h
    simp [startSpeakingFn, if_neg h, conversationReducer]

/-- Witness for C5: both branches at concrete inputs. -/
theorem startSpeakingFn_spec_witness :
    (startSpeakingFn 1 0 { initialState with exchangeCount := 1 }).currentState
        = CState.idle ∧
    (startSpeakingFn 50 0 initialState).currentState = CState.speaking := by
  refine ⟨?_, ?_⟩
  · exact (startSpeakingFn_spec 1 0 { initialState with exchangeCount := 1 }).1
      (by constructor <;> decide) |>.2.1
  · exact ((startSpeakingFn_spec 50 0 initialState).2 (by decide)).1

/-- **C6.** `interruptSpeaking` is a no-op when interruption is not allowed;
otherwise it moves to `interrupted`, clears `canInterrupt`, and leaves
mode, activity flag, session, start time, exchange counter, error and
metadata untouched. -/
theorem interruptSpeakingFn_spec (t : Int) (s : ConvState) :
    (s.canInterrupt = false → interruptSpeakingFn t s = s) ∧
    (s.canInterrupt = true →
      (interruptSpeakingFn t s).currentState = CState.interrupted ∧
      (interruptSpeakingFn t s).canInterrupt = false ∧
      (interruptSpeakingFn t s).mode = s.mode ∧
      (interruptSpeakingFn t s).isActive = s.isActive ∧
      (interruptSpeakingFn t s).sessionId = s.sessionId ∧
      (interruptSpeakingFn t s).startTime = s.startTime ∧
      (interruptSpeakingFn t s).exchangeCount = s.exchangeCount ∧
      (interruptSpeakingFn t s).error = s.error ∧
      (interruptSpeakingFn t s).metadata = s.metadata) := by
  constructor
  · intro h
    simp [interruptSpeakingFn, h]
  · intro h
    simp [interruptSpeakingFn, h, conversationReducer]

/-- Witness for C6: the no-op branch at `initialState` and the interrupting
branch at a speaking state. -/
theorem interruptSpeakingFn_spec_witness :
    interruptSpeakingFn 7 initialState = initialState ∧
    (interruptSpeakingFn 7 sampleSpeakingState).currentState = CState.interrupted := by
  refine ⟨(interruptSpeakingFn_spec 7 initialState).1 rfl, ?_⟩
  exact ((interruptSpeakingFn_spec 7 sampleSpeakingState).2 rfl).1

/-- **C7.** `onSpeechDetected` dispatches `SPEECH_DETECTED` only from
`listening`, in which case the state becomes `processing`; from every
other state the call leaves the whole conversation state unchanged. -/
theorem onSpeechDetectedFn_spec (t : Int) (s : ConvState) :
    (s.currentState = CState.listening →
      (onSpeechDetectedFn t s).currentState = CState.processing) ∧
    (s.currentState ≠ CState.listening → onSpeechDetectedFn t s = s) := by
  constructor
  · intro h
    simp [onSpeechDetectedFn, h, conversationReducer]
  · intro h
    simp [onSpeechDetectedFn, h]

/-- Witness for C7: a listening state moves to `processing`, the idle
initial state is untouched. -/
theorem onSpeechDetectedFn_spec_witness :
    (onSpeechDetectedFn 3 sampleListeningState).currentState = CState.processing ∧
    onSpeechDetectedFn 3 initialState = initialState := by
  refine ⟨(onSpeechDetectedFn_spec 3 sampleListeningState).1 rfl, ?_⟩
  exact (onSpeechDetectedFn_spec 3 initialState).2 (by decide)

/-- The four-step action sequence refuting C10: start a conversation, detect
speech, start speaking, then start a conversation again.
`START_CONVERSATION` does not reset `canInterrupt`, so the flag survives
into the new session's `listening` state. -/
def c10BadState : ConvState :=
  conversationReducer 3
    (conversationReducer 2
      (conversationReducer 1
        (conversationReducer 0 initialState (CAction.startConversation none none))
        CAction.speechDetected)
      CAction.startSpeaking)
    (CAction.startConversation none none)

/-- **C10, counterexample.** The claimed invariant
`canInterrupt = true ↔ currentState = 'speaking'` fails on a reachable
state: after start → speech detected → start speaking → start conversation
(the `SPEECH_DETECTED` guard respected throughout), the state is
`listening` with `canInterrupt` still `true`. -/
theorem canInterrupt_iff_speaking_counterexample :
    ¬ (∀ s : ConvState, Reachable s →
        (s.canInterrupt = true ↔ s.currentState = CState.speaking)) := by
  intro h
  have hreach : Reachable c10BadState := by
    refine Reachable.step _ _ 3 (Reachable.step _ _ 2 (Reachable.step _ _ 1
      (Reachable.step _ _ 0 Reachable.init ?_) ?_) ?_) ?_
    · intro hEq; exact absurd hEq (by decide)
    · intro _; rfl
    · intro hEq; exact absurd hEq (by decide)
    · intro hEq; exact absurd hEq (by decide)
  have hci : c10BadState.canInterrupt = true := rfl
  have := (h c10BadState hreach).mp hci
  exact absurd this (by decide)

/-- **C10, amended.** One direction of the claimed invariant holds on every
guarded-reachable state: whenever `currentState` is `speaking`,
`canInterrupt` is `true` (the only action entering `speaking` sets it).
The converse fails — `canInterrupt` can survive into `listening`,
`processing` or `idle` because `START_CONVERSATION`, `SPEECH_DETECTED` and
`RESET_ERROR` do not reset it — but it is always `false` in the
`interrupted` and `error` states. -/
theorem canInterrupt_invariant (s : ConvState) (h : Reachable s) :
    (s.currentState = CState.speaking → s.canInterrupt = true) ∧
    ((s.currentState = CState.interrupted ∨ s.currentState = CState.error) →
      s.canInterrupt = false) := by
  induction h with
  | init => exact ⟨fun h' => absurd h' (by decide), fun _ => rfl⟩
  | step s a t hr hg ih =>
      cases a with
      | startConversation sid meta =>
          exact ⟨fun h' => absurd h' (by simp [conversationReducer]),
                 fun h' => by simp [conversationReducer] at h'⟩
      | endConversation =>
          exact ⟨fun h' => absurd h' (by simp [conversationReducer]),
                 fun _ => by simp [conversationReducer]⟩
      | startListening =>
          exact ⟨fun h' => absurd h' (by simp [conversationReducer]),
                 fun _ => by simp [conversationReducer]⟩
      | speechDetected =>
          exact ⟨fun h' => absurd h' (by simp [conversationReducer]),
                 fun h' => by simp [conversationReducer] at h'⟩
      | startProcessing =>
          exact ⟨fun h' => absurd h' (by simp [conversationReducer]),
                 fun _ => by simp [conversationReducer]⟩
      | startSpeaking =>
          exact ⟨fun _ => by simp [conversationReducer],
                 fun h' => by simp [conversationReducer] at h'⟩
      | finishSpeaking =>
          refine ⟨fun h' => ?_, fun _ => by simp [conversationReducer]⟩
          by_cases hm : s.mode = CMode.conversational <;>
            simp [conversationReducer, hm] at h'
      | interruptSpeaking =>
          exact ⟨fun h' => absurd h' (by simp [conversationReducer]),
                 fun _ => by simp [conversationReducer]⟩
      | errorOccurred e =>
          exact ⟨fun h' => absurd h' (by simp [conversationReducer]),
                 fun _ => by simp [conversationReducer]⟩
      | resetError =>
          refine ⟨fun h' => ?_, fun h' => ?_⟩
          · by_cases hm : s.mode = CMode.conversational <;>
              simp [conversationReducer, hm] at h'
          · by_cases hm : s.mode = CMode.conversational <;>
              simp [conversationReducer, hm] at h'
      | updateSession meta =>
          exact ⟨fun h' => ih.1 (by simpa [conversationReducer] using h'),
                 fun h' => by
                   simpa [conversationReducer] using
                     ih.2 (by simpa [conversationReducer] using h')⟩
      | unknownAction => exact ih

/-- Witness for the amended C10 at the initial state. -/
theorem canInterrupt_invariant_witness :
    (initialState.currentState = CState.speaking → initialState.canInterrupt = true) ∧
    ((initialState.currentState = CState.interrupted ∨
        initialState.currentState = CState.error) →
      initialState.canInterrupt = false) :=
  canInterrupt_invariant initialState Reachable.init

/-! ## Theorems: voice activity detection -/

/-- **C2, counterexample.** `onSpeechStart` is fired by the very first
speech-classified frame: from the freshly started VAD state, the handler at
time `0` fires `speechStart` although the detected speech has lasted `0` ms,
strictly less than the default `minSpeechDuration` of 500 ms. -/
theorem speechStart_before_minDuration_counterexample :
    (handleSpeechDetected defaultVADConfig 0 vadStartState).2 =
      [VADEvent.speechStart] ∧
    (0 : Int) < defaultVADConfig.minSpeechDuration := by
  exact ⟨by decide, by decide⟩

/-- **C2, amended.** `onSpeechStart` fires exactly on a speech frame that
arrives while not already speaking — immediately, with no minimum-duration
wait; the duration thresholds only gate `onSpeechEnd`: a silence frame
fires `speechEnd` only if the handler was speaking, the accumulated silence
exceeds `speechTimeout`, and the speech segment reached
`minSpeechDuration`. -/
theorem vad_callback_thresholds (cfg : VADConfig) (t : Int) (s : VADState) :
    (VADEvent.speechStart ∈ (handleSpeechDetected cfg t s).2 ↔
      s.isSpeaking = false) ∧
    (∀ d : Int, VADEvent.speechEnd d ∈ (handleSilenceDetected cfg t s).2 →
      s.isSpeaking = true ∧
      t - jsOr s.silenceStartTime t > cfg.speechTimeout ∧
      jsOr s.silenceStartTime t - s.speechStartTime.getD 0 ≥
        cfg.minSpeechDuration) := by
  constructor
  · by_cases hs : s.isSpeaking
    · constructor
      · intro hmem
        exfalso
        by_cases hmax : cfg.maxSpeechDuration < t - s.speechStartTime.getD 0
        · simp [handleSpeechDetected, hs, hmax, handleSpeechEnd] at hmem
        · simp [handleSpeechDetected, hs, hmax] at hmem
      · intro hcontra
        simp [hs] at hcontra
    · have hs' : s.isSpeaking = false := by simpa using hs
      constructor
      · intro _; exact hs'
      · intro _
        by_cases hmax : cfg.maxSpeechDuration < (0 : Int)
        · simp [handleSpeechDetected, hs', hmax, handleSpeechEnd]
        · simp [handleSpeechDetected, hs', hmax]
  · intro d hmem
    by_cases hs : s.isSpeaking
    · refine ⟨hs, ?_⟩
      by_cases h1 : t - jsOr s.silenceStartTime t > cfg.speechTimeout
      · by_cases h2 :
          jsOr s.silenceStartTime t - s.speechStartTime.getD 0 ≥
            cfg.minSpeechDuration
        · exact ⟨h1, h2⟩
        · exact absurd hmem (by simp [handleSilenceDetected, hs, h1, h2])
      · exact absurd hmem (by simp [handleSilenceDetected, hs, h1])
    · exact absurd hmem (by simp [handleSilenceDetected, hs])

/-- Witness for the amended C2: the first speech frame from the fresh state
fires `speechStart`. -/
theorem vad_callback_thresholds_witness :
    VADEvent.speechStart ∈ (handleSpeechDetected defaultVADConfig 5 vadStartState).2 :=
  (vad_callback_thresholds defaultVADConfig 5 vadStartState).1.mpr rfl

/-- **C3.** For an ongoing speech segment (speaking, with the speech start
and silence start timers set), a silence frame fires `onSpeechEnd` — with
duration `silenceStartTime - speechStartTime` — exactly when the
accumulated silence strictly exceeds `speechTimeout` and the segment
lasted at least `minSpeechDuration`; a segment that is too short is
discarded without firing, resetting `isSpeaking`, `speechStartTime` and
`silenceStartTime`; and nothing fires while silence is within the
timeout. -/
theorem handleSilenceDetected_segmentation (cfg : VADConfig) (t ts ss : Int)
    (s : VADState) (hsp : s.isSpeaking = true)
    (hst : s.speechStartTime = some ts) (hss : s.silenceStartTime = some ss)
    (hss0 : ss ≠ 0) :
    ((handleSilenceDetected cfg t s).2 = [VADEvent.speechEnd (ss - ts)] ↔
      (t - ss > cfg.speechTimeout ∧ ss - ts ≥ cfg.minSpeechDuration)) ∧
    ((t - ss > cfg.speechTimeout ∧ ss - ts < cfg.minSpeechDuration) →
      (handleSilenceDetected cfg t s).2 = [] ∧
      (handleSilenceDetected cfg t s).1.isSpeaking = false ∧
      (handleSilenceDetected cfg t s).1.speechStartTime = none ∧
      (handleSilenceDetected cfg t s).1.silenceStartTime = none) ∧
    (¬(t - ss > cfg.speechTimeout) → (handleSilenceDetected cfg t s).2 = []) := by
  have hjs : jsOr s.silenceStartTime t = ss := by simp [jsOr, hss, hss0]
  by_cases h1 : t - ss > cfg.speechTimeout
  · by_cases h2 : ss - ts ≥ cfg.minSpeechDuration
    · refine ⟨⟨fun _ => ⟨h1, h2⟩, fun _ => ?_⟩,
        fun hcon => absurd hcon.2 (not_lt.mpr h2), fun hcon => absurd h1 hcon⟩
      simp [handleSilenceDetected, handleSpeechEnd, hsp, hst, h1, h2, jsOr,
        hss, hss0]
    · refine ⟨⟨fun heq => ?_, fun hc => absurd hc.2 h2⟩, fun _ => ?_,
        fun hcon => absurd h1 hcon⟩
      · exfalso
        simp [handleSilenceDetected, hsp, hjs, hst, h1, h2] at heq
      · refine ⟨?_, ?_, ?_, ?_⟩ <;>
          simp [handleSilenceDetected, hsp, hjs, hst, h1, h2]
  · refine ⟨⟨fun heq => ?_, fun hc => absurd hc.1 h1⟩,
      fun hcon => absurd hcon.1 h1, fun _ => ?_⟩
    · exfalso
      simp [handleSilenceDetected, hsp, hjs, h1] at heq
    · simp [handleSilenceDetected, hsp, hjs, h1]

/-- A concrete mid-segment VAD state used by the C3 witness. -/
def sampleVadSpeaking : VADState :=
  { isSpeaking := true
    speechStartTime := some 1000
    lastSpeechTime := some 2500
    silenceStartTime := some 2600 }

/-- Witness for C3: with the default thresholds, a silence frame at 4200 ms
after speech from 1000 ms to 2600 ms fires `speechEnd` with duration
1600 ms. -/
theorem handleSilenceDetected_segmentation_witness :
    (handleSilenceDetected defaultVADConfig 4200 sampleVadSpeaking).2 =
      [VADEvent.speechEnd 1600] := by
  have h := handleSilenceDetected_segmentation defaultVADConfig 4200 1000 2600
    sampleVadSpeaking rfl rfl rfl (by decide)
  exact h.1.mpr (by constructor <;> decide)

/-- **C4.** A polled frame is classified as speech exactly when the computed
volume `min(100, (mean(bytes)/255)*100)` strictly exceeds the configured
threshold; a frame whose volume equals the threshold counts as silence;
and the volume always lies in `[0, 100]`. -/
theorem calculateVolume_spec (dataArray : List ℕ) (_hne : dataArray ≠ [])
    (_hbytes : ∀ x ∈ dataArray, x ≤ 255) (th : ℚ) :
    0 ≤ calculateVolume dataArray ∧ calculateVolume dataArray ≤ 100 ∧
    (isSpeechDetectedFrame th dataArray = true ↔ th < calculateVolume dataArray) ∧
    (calculateVolume dataArray = th → isSpeechDetectedFrame th dataArray = false) := by
  refine ⟨?_, min_le_left _ _, ?_, ?_⟩
  · refine le_min (by norm_num) ?_
    have hsum : (0 : ℚ) ≤ (dataArray.sum : ℚ) := by positivity
    have hlen : (0 : ℚ) ≤ (dataArray.length : ℚ) := by positivity
    positivity
  · simp [isSpeechDetectedFrame]
  · intro heq
    simp [isSpeechDetectedFrame, heq]

/-- Witness for C4: a one-byte frame of value 51 has volume 20, which is
speech against threshold 10. -/
theorem calculateVolume_spec_witness :
    isSpeechDetectedFrame 10 [51] = true := by
  have h := calculateVolume_spec [51] (by decide) (by decide) 10
  exact h.2.2.1.mpr (by norm_num [calculateVolume])

/-! ## Theorems: text processing -/

/-- No two adjacent characters are both whitespace. -/
def noConsecWsB : List Char → Bool
  | a :: b :: rest => (!(isJsWs a && isJsWs b)) && noConsecWsB (b :: rest)
  | _ => true

/-- Neither the first nor the last character is whitespace. -/
def noEdgeWsB (l : List Char) : Bool :=
  (match l.head? with | some c => !(isJsWs c) | none => true) &&
  (match l.getLast? with | some c => !(isJsWs c) | none => true)

/-- `noConsecWsB` as a `Chain'` predicate. -/
theorem noConsecWsB_iff_chain' (l : List Char) :
    noConsecWsB l = true ↔
      List.Chain' (fun a b => ¬(isJsWs a = true ∧ isJsWs b = true)) l := by
  induction l with
  | nil => simp [noConsecWsB]
  | cons a rest ih =>
      cases rest with
      | nil =>
          simp [show noConsecWsB [a] = true from rfl, List.chain'_singleton]
      | cons b rest' =>
          rw [List.chain'_cons]
          constructor
          · intro h
            have h' := h
            simp only [noConsecWsB, Bool.and_eq_true, Bool.not_eq_true'] at h'
            refine ⟨?_, ih.mp ?_⟩
            · intro hab
              rw [hab.1, hab.2] at h'
              simp at h'
            · exact h'.2
          · intro ⟨hab, hrest⟩
            simp only [noConsecWsB, Bool.and_eq_true]
            refine ⟨?_, (ih.mpr hrest)⟩
            by_cases ha : isJsWs a
            · by_cases hb : isJsWs b
              · exact absurd ⟨ha, hb⟩ hab
              · simp [hb]
            · simp [ha]

/-- Membership in `collapseWs` output: a space or an original character. -/
theorem mem_collapseWs {c : Char} :
    ∀ l : List Char, c ∈ collapseWs l → c = ' ' ∨ c ∈ l := by
  intro l
  induction l with
  | nil => intro h; cases h
  | cons a rest ih =>
      cases rest with
      | nil =>
          by_cases ha : isJsWs a <;> intro h <;>
            simp [collapseWs, ha] at h <;> simp [h]
      | cons b rest' =>
          intro h
          by_cases ha : isJsWs a
          · by_cases hb : isJsWs b
            · rw [show collapseWs (a :: b :: rest') =
                  collapseWs (b :: rest') by
                    simp only [collapseWs, if_pos ha, if_pos hb]] at h
              rcases ih h with h' | h'
              · exact Or.inl h'
              · exact Or.inr (List.mem_cons_of_mem a h')
            · rw [show collapseWs (a :: b :: rest') =
                  ' ' :: collapseWs (b :: rest') by
                    simp only [collapseWs, if_pos ha, if_neg hb]] at h
              rcases List.mem_cons.mp h with h' | h'
              · exact Or.inl h'
              · rcases ih h' with h'' | h''
                · exact Or.inl h''
                · exact Or.inr (List.mem_cons_of_mem a h'')
          · rw [show collapseWs (a :: b :: rest') =
                a :: collapseWs (b :: rest') by
                  simp only [collapseWs, if_neg ha]] at h
            rcases List.mem_cons.mp h with h' | h'
            · exact Or.inr (by rw [h']; exact List.mem_cons_self a _)
            · rcases ih h' with h'' | h''
              · exact Or.inl h''
              · exact Or.inr (List.mem_cons_of_mem a h'')

/-- A non-whitespace head survives `collapseWs` as the head. -/
theorem collapseWs_cons_of_not_ws {d : Char} (h : isJsWs d = false) :
    ∀ rest : List Char, ∃ tl, collapseWs (d :: rest) = d :: tl := by
  intro rest
  cases rest with
  | nil => exact ⟨[], by simp [collapseWs, h]⟩
  | cons b rest' => exact ⟨collapseWs (b :: rest'), by simp [collapseWs, h]⟩

/-- `collapseWs` never produces two adjacent whitespace characters. -/
theorem chain'_collapseWs (l : List Char) :
    List.Chain' (fun a b => ¬(isJsWs a = true ∧ isJsWs b = true)) (collapseWs l) := by
  induction l with
  | nil => simp [collapseWs]
  | cons a rest ih =>
      cases rest with
      | nil =>
          by_cases ha : isJsWs a <;> simp [collapseWs, ha]
      | cons b rest' =>
          by_cases ha : isJsWs a
          · by_cases hb : isJsWs b
            · rw [show collapseWs (a :: b :: rest') = collapseWs (b :: rest') from by
                simp only [collapseWs, if_pos ha, if_pos hb]]
              exact ih
            · rw [show collapseWs (a :: b :: rest') = ' ' :: collapseWs (b :: rest') from by
                simp only [collapseWs, if_pos ha, if_neg hb]]
              rcases collapseWs_cons_of_not_ws (by simpa using hb) rest' with ⟨tl, htl⟩
              rw [htl]
              rw [htl] at ih
              exact List.chain'_cons.mpr ⟨fun hc => hb hc.2, ih⟩
          · rw [show collapseWs (a :: b :: rest') = a :: collapseWs (b :: rest') from by
                simp only [collapseWs, if_neg ha]]
            refine List.chain'_cons'.mpr ⟨fun y _ => fun hc => ha hc.1, ih⟩

/-- `Chain'` conditions survive `dropWhile` (a suffix). -/
theorem chain'_dropWhile {R : Char → Char → Prop} (p : Char → Bool)
    {l : List Char} (h : List.Chain' R l) : List.Chain' R (l.dropWhile p) := by
  have hsplit := List.takeWhile_append_dropWhile (p := p) (l := l)
  rw [← hsplit] at h
  exact (List.chain'_append.mp h).2.1

/-- `Chain'` of a symmetric-shape condition survives `trimWs`. -/
theorem chain'_trimWs {l : List Char}
    (h : List.Chain' (fun a b => ¬(isJsWs a = true ∧ isJsWs b = true)) l) :
    List.Chain' (fun a b => ¬(isJsWs a = true ∧ isJsWs b = true)) (trimWs l) := by
  unfold trimWs
  have h1 := chain'_dropWhile isJsWs h
  have h2 : List.Chain' (fun a b => ¬(isJsWs a = true ∧ isJsWs b = true))
      ((l.dropWhile isJsWs).reverse) :=
    List.chain'_reverse.mpr (h1.imp (fun a b hab hc => hab ⟨hc.2, hc.1⟩))
  have h3 := chain'_dropWhile isJsWs h2
  exact List.chain'_reverse.mpr (h3.imp (fun a b hab hc => hab ⟨hc.2, hc.1⟩))

/-- A nonempty `dropWhile` keeps the last element of the list. -/
theorem getLast?_dropWhile_of_ne_nil (p : Char → Bool) (l : List Char)
    (h : l.dropWhile p ≠ []) : (l.dropWhile p).getLast? = l.getLast? := by
  conv_rhs => rw [← List.takeWhile_append_dropWhile (p := p) (l := l)]
  rw [List.getLast?_append]
  obtain ⟨x, hx⟩ := Option.isSome_iff_exists.mp (List.getLast?_isSome.mpr h)
  rw [hx]
  rfl

/-- `trimWs` leaves no whitespace at either end. -/
theorem noEdgeWsB_trimWs (l : List Char) : noEdgeWsB (trimWs l) = true := by
  have hhead := List.head?_dropWhile_not isJsWs ((l.dropWhile isJsWs).reverse)
  have hhead0 := List.head?_dropWhile_not isJsWs l
  unfold noEdgeWsB trimWs
  rw [Bool.and_eq_true]
  constructor
  · rw [List.head?_reverse]
    by_cases hne : ((l.dropWhile isJsWs).reverse.dropWhile isJsWs) = []
    · rw [hne]; rfl
    · rw [getLast?_dropWhile_of_ne_nil _ _ hne, List.getLast?_reverse]
      cases hc : (l.dropWhile isJsWs).head? with
      | none => rfl
      | some c =>
          rw [hc] at hhead0
          simp [hhead0]
  · rw [List.getLast?_reverse]
    cases hc : ((l.dropWhile isJsWs).reverse.dropWhile isJsWs).head? with
    | none => rfl
    | some c =>
        rw [hc] at hhead
        simp [hhead]

/-- `trimWs` output characters come from the input. -/
theorem mem_trimWs {c : Char} {l : List Char} (h : c ∈ trimWs l) : c ∈ l := by
  unfold trimWs at h
  rw [List.mem_reverse] at h
  have h1 := (List.dropWhile_sublist (l := (l.dropWhile isJsWs).reverse) isJsWs).subset h
  rw [List.mem_reverse] at h1
  exact (List.dropWhile_sublist (l := l) isJsWs).subset h1

/-- Every character of a cleaned string is outside the removed class
`[#*_`~|]`: the catch-all removal runs before whitespace collapsing, which
only introduces plain spaces. -/
theorem clean_no_special (v : JsValue) :
    ∀ c ∈ cleanMarkdownForSpeech v, isSpecialChar c = false := by
  intro c hc
  cases v with
  | str s =>
      by_cases hs : s.isEmpty
      · simp [cleanMarkdownForSpeech, hs] at hc
      · have hc' : c ∈ cleanPipeline s := by
          simpa [cleanMarkdownForSpeech, hs] using hc
        unfold cleanPipeline at hc'
        have h1 := mem_trimWs hc'
        rcases mem_collapseWs _ h1 with h2 | h2
        · rw [h2]; rfl
        · unfold removeSpecialChars at h2
          have h3 := List.of_mem_filter h2
          simpa using h3
  | nullV => simp [cleanMarkdownForSpeech] at hc
  | undefinedV => simp [cleanMarkdownForSpeech] at hc
  | otherV => simp [cleanMarkdownForSpeech] at hc

/-- The final two pipeline stages leave no adjacent whitespace pair. -/
theorem noConsec_trim_collapse (X : List Char) :
    noConsecWsB (trimWs (collapseWs X)) = true :=
  (noConsecWsB_iff_chain' _).mpr (chain'_trimWs (chain'_collapseWs _))

/-- The cleaned text never has two adjacent whitespace characters. -/
theorem clean_noConsecWs (v : JsValue) :
    noConsecWsB (cleanMarkdownForSpeech v) = true := by
  cases v with
  | str s =>
      by_cases hs : s.isEmpty
      · simp [cleanMarkdownForSpeech, hs, noConsecWsB]
      · have heq : cleanMarkdownForSpeech (JsValue.str s) = cleanPipeline s := by
          simp [cleanMarkdownForSpeech, hs]
        rw [heq]
        unfold cleanPipeline
        exact noConsec_trim_collapse _
  | nullV => rfl
  | undefinedV => rfl
  | otherV => rfl

/-- The cleaned text has no whitespace at either end. -/
theorem clean_noEdgeWs (v : JsValue) :
    noEdgeWsB (cleanMarkdownForSpeech v) = true := by
  cases v with
  | str s =>
      by_cases hs : s.isEmpty
      · simp [cleanMarkdownForSpeech, hs, noEdgeWsB]
      · have heq : cleanMarkdownForSpeech (JsValue.str s) = cleanPipeline s := by
          simp [cleanMarkdownForSpeech, hs]
        rw [heq]
        unfold cleanPipeline
        exact noEdgeWsB_trimWs _
  | nullV => rfl
  | undefinedV => rfl
  | otherV => rfl

/-- **C8.** `cleanMarkdownForSpeech` returns the empty string unless the
input is a nonempty string, and its output never contains the characters
`#`, `*`, `_`, backtick, `~`, `|`, has no whitespace at either end, and
has no two consecutive whitespace characters. -/
theorem cleanMarkdownForSpeech_spec (v : JsValue) :
    (cleanMarkdownForSpeech v = [] ∨ ∃ s, v = JsValue.str s ∧ s ≠ []) ∧
    (cleanMarkdownForSpeech v).all (fun c => !(isSpecialChar c)) = true ∧
    noEdgeWsB (cleanMarkdownForSpeech v) = true ∧
    noConsecWsB (cleanMarkdownForSpeech v) = true := by
  refine ⟨?_, ?_, clean_noEdgeWs v, clean_noConsecWs v⟩
  · cases v with
    | str s =>
        by_cases hs : s.isEmpty
        · exact Or.inl (by simp [cleanMarkdownForSpeech, hs])
        · exact Or.inr ⟨s, rfl, by simpa [List.isEmpty_iff] using hs⟩
    | nullV => exact Or.inl rfl
    | undefinedV => exact Or.inl rfl
    | otherV => exact Or.inl rfl
  · rw [List.all_eq_true]
    intro c hc
    simp [clean_no_special v c hc]

/-- Distinct specialness decides `==` apart. -/
theorem beq_false_of_special_mismatch {c d : Char} (h : isSpecialChar c = false)
    (hd : isSpecialChar d = true) : (c == d) = false := by
  by_cases hcd : c = d
  · rw [hcd] at h; rw [h] at hd; cases hd
  · exact beq_eq_false_iff_ne.mpr hcd

/-- A character outside the removed class is not a backtick. -/
theorem isTick_false_of_not_special {c : Char} (h : isSpecialChar c = false) :
    isTick c = false := by
  simp only [isSpecialChar, Bool.or_eq_false_iff] at h
  exact h.1.1.2

/-- A character outside the removed class is not a hash. -/
theorem beq_hash_false_of_not_special {c : Char} (h : isSpecialChar c = false) :
    (c == '#') = false := by
  simp only [isSpecialChar, Bool.or_eq_false_iff] at h
  exact h.1.1.1.1.1

/-- A pattern whose match always needs a special first character cannot
match anywhere in a special-free string. -/
theorem testAnywhere_false_of (matchAt : List Char → Bool)
    (hm : ∀ c rest, isSpecialChar c = false → matchAt (c :: rest) = false) :
    ∀ l : List Char, (∀ c ∈ l, isSpecialChar c = false) →
      testAnywhere matchAt l = false := by
  intro l
  induction l with
  | nil => intro _; rfl
  | cons c rest ih =>
      intro h
      simp only [testAnywhere, Bool.or_eq_false_iff]
      exact ⟨hm c rest (h c (List.mem_cons_self c rest)),
             ih (fun x hx => h x (List.mem_cons_of_mem c hx))⟩

/-- Line-start variant of `testAnywhere_false_of`. -/
theorem testLineStart_false_of (matchAt : List Char → Bool)
    (hm : ∀ c rest, isSpecialChar c = false → matchAt (c :: rest) = false) :
    ∀ (l : List Char) (b : Bool), (∀ c ∈ l, isSpecialChar c = false) →
      testLineStart matchAt b l = false := by
  intro l
  induction l with
  | nil => intro b _; rfl
  | cons c rest ih =>
      intro b h
      simp only [testLineStart, Bool.or_eq_false_iff]
      refine ⟨?_, ih (isLineTerm c) (fun x hx => h x (List.mem_cons_of_mem c hx))⟩
      rw [hm c rest (h c (List.mem_cons_self c rest))]
      simp

/-- The header pattern needs a leading hash. -/
theorem matchHeaderAt_false {c : Char} {rest : List Char}
    (h : isSpecialChar c = false) : matchHeaderAt (c :: rest) = false := by
  simp [matchHeaderAt, List.takeWhile_cons, beq_hash_false_of_not_special h]

/-- The double-delimiter patterns need a leading delimiter. -/
theorem matchDoubleDelimAt_false {d c : Char} {rest : List Char}
    (hd : isSpecialChar d = true) (h : isSpecialChar c = false) :
    matchDoubleDelimAt d (c :: rest) = false := by
  have h1 := beq_false_of_special_mismatch h hd
  cases rest with
  | nil => rfl
  | cons b rest' => simp [matchDoubleDelimAt, h1]

/-- The single-delimiter patterns need a leading delimiter. -/
theorem matchSingleDelimAt_false {d c : Char} {rest : List Char}
    (hd : isSpecialChar d = true) (h : isSpecialChar c = false) :
    matchSingleDelimAt d (c :: rest) = false := by
  simp [matchSingleDelimAt, beq_false_of_special_mismatch h hd]

/-- The inline-code pattern needs a leading backtick. -/
theorem matchInlineCodeAt_false {c : Char} {rest : List Char}
    (h : isSpecialChar c = false) : matchInlineCodeAt (c :: rest) = false := by
  simp [matchInlineCodeAt, isTick_false_of_not_special h]

/-- The code-block pattern needs a leading backtick. -/
theorem matchCodeBlockAt_false {c : Char} {rest : List Char}
    (h : isSpecialChar c = false) : matchCodeBlockAt (c :: rest) = false := by
  cases rest with
  | nil => rfl
  | cons b rest' =>
      cases rest' with
      | nil => rfl
      | cons e rest'' =>
          simp [matchCodeBlockAt, isTick_false_of_not_special h]

/-- **C9, counterexample.** Cleaning does not remove every pattern that
`hasMarkdownSyntax` detects: `cleanMarkdownForSpeech` has no rule for list
markers, so the bulleted list `"- a"` passes through unchanged and
`hasMarkdownSyntax` still reports it. -/
theorem clean_keeps_list_marker_counterexample :
    hasMarkdownSyntax (JsValue.str (cleanMarkdownForSpeech
      (JsValue.str ['-', ' ', 'a']))) = true := by decide

/-- **C9, amended.** Cleaning does remove every *character-based* pattern
`hasMarkdownSyntax` detects — headers, double and single asterisk and
underscore emphasis, inline code, code blocks, and strikethrough can never
match the cleaned output, because every `#`, `*`, `_`, backtick and `~` is
removed.  The bracket-based patterns (links, images), blockquotes and list
markers can survive cleaning. -/
theorem clean_removes_char_patterns (v : JsValue) :
    testLineStart matchHeaderAt true (cleanMarkdownForSpeech v) = false ∧
    testAnywhere (matchDoubleDelimAt '*') (cleanMarkdownForSpeech v) = false ∧
    testAnywhere (matchDoubleDelimAt '_') (cleanMarkdownForSpeech v) = false ∧
    testAnywhere (matchSingleDelimAt '*') (cleanMarkdownForSpeech v) = false ∧
    testAnywhere (matchSingleDelimAt '_') (cleanMarkdownForSpeech v) = false ∧
    testAnywhere matchInlineCodeAt (cleanMarkdownForSpeech v) = false ∧
    testAnywhere matchCodeBlockAt (cleanMarkdownForSpeech v) = false ∧
    testAnywhere (matchDoubleDelimAt '~') (cleanMarkdownForSpeech v) = false := by
  have hns := clean_no_special v
  exact ⟨testLineStart_false_of _ (fun c rest hc => matchHeaderAt_false hc) _ true hns,
    testAnywhere_false_of _
      (fun c rest hc => matchDoubleDelimAt_false (by decide) hc) _ hns,
    testAnywhere_false_of _
      (fun c rest hc => matchDoubleDelimAt_false (by decide) hc) _ hns,
    testAnywhere_false_of _
      (fun c rest hc => matchSingleDelimAt_false (by decide) hc) _ hns,
    testAnywhere_false_of _
      (fun c rest hc => matchSingleDelimAt_false (by decide) hc) _ hns,
    testAnywhere_false_of _ (fun c rest hc => matchInlineCodeAt_false hc) _ hns,
    testAnywhere_false_of _ (fun c rest hc => matchCodeBlockAt_false hc) _ hns,
    testAnywhere_false_of _
      (fun c rest hc => matchDoubleDelimAt_false (by decide) hc) _ hns⟩
